import Mathlib

/-
Shallow embedding of the role-based academic-records API in
`src/reports/api/views.py`, `src/reports/api/serializers.py` and
`src/reports/api/permissions.py`.

Django's ORM state is modelled as an explicit `Db` record: tables are lists
of rows, foreign keys are numeric ids, and the student-course many-to-many
table is a list of `(courseId, studentId)` edges.  Each view action becomes
a function from the request data (principal, target object, body) and the
current `Db` to an outcome and the next `Db`.
-/

namespace StudentsPortal

/-- `reports.models.Profile`: role string plus display name
(`Course.lecturer` is matched against `Profile.name`). -/
structure Profile where
  role : String
  name : String
deriving DecidableEq, Repr

/-- `django.contrib.auth.models.User` as the views see it: an id, the
`is_authenticated` flag, and the optional reverse one-to-one `profile`
(`hasattr(user, 'profile')` is `profile.isSome`). -/
structure User where
  id : Nat
  authenticated : Bool
  profile : Option Profile
deriving DecidableEq, Repr

/-- `reports.models.Student`: linked 1:1 to a user account via `userId`. -/
structure Student where
  id : Nat
  userId : Nat
  name : String
deriving DecidableEq, Repr

/-- `reports.models.Course`. -/
structure Course where
  id : Nat
  name : String
  code : String
  creditUnits : Nat
  lecturer : String
deriving DecidableEq, Repr

/-- `reports.models.Grade`: foreign keys to student and course, the raw
score, and the derived `np_status` string compared against `"NP"` in
`StudentDetailSerializer.get_semester_remark`. -/
structure Grade where
  id : Nat
  studentId : Nat
  courseId : Nat
  score : Nat
  npStatus : String
deriving DecidableEq, Repr

/-- `reports.models.CourseReview`. -/
structure CourseReview where
  id : Nat
  studentId : Nat
  courseId : Nat
  rating : Nat
  comment : String
deriving DecidableEq, Repr

/-- The persistent store: one list per table, plus the student-course
many-to-many enrollment edges as `(courseId, studentId)` pairs. -/
structure Db where
  students : List Student
  courses : List Course
  grades : List Grade
  reviews : List CourseReview
  enrollments : List (Nat × Nat)
deriving DecidableEq, Repr

/-- `Course.objects.get(id=cid)` / `Course.objects.filter(id=cid).first()`. -/
def courseById (db : Db) (cid : Nat) : Option Course :=
  db.courses.find? (fun c => c.id == cid)

/-- `Student.objects.get(user=request.user)` (`none` is `DoesNotExist`). -/
def studentByUser (db : Db) (u : User) : Option Student :=
  db.students.find? (fun s => s.userId == u.id)

/-- `permissions.IsStudent.has_permission`. -/
def isStudentPerm (u : User) : Bool :=
  u.authenticated &&
    (match u.profile with
     | some p => p.role == "student"
     | none => false)

/-- `permissions.IsLecturerOrAdmin.has_permission`. -/
def isLecturerOrAdminPerm (u : User) : Bool :=
  u.authenticated &&
    (match u.profile with
     | some p => p.role == "lecturer" || p.role == "admin"
     | none => false)

/-- The action names routed to `IsLecturerOrAdmin` by
`StudentViewSet.get_permissions`. -/
def studentViewSetPrivilegedActions : List String :=
  ["list", "create", "update", "partial_update", "destroy"]

/-- `StudentViewSet.get_permissions` followed by the permission check:
whether `u` may run `action` on the student viewset (the `gpa`, `enroll`,
`unenroll`, `me`, `grades`, `retrieve` actions fall to `IsAuthenticated`). -/
def studentViewSetAllows (u : User) (action : String) : Bool :=
  if studentViewSetPrivilegedActions.contains action then
    isLecturerOrAdminPerm u
  else
    u.authenticated

/-- The membership test `Course.objects.filter(lecturer=name)` /
`queryset.filter(course__in=lecturer_courses)` performs per row: the row's
course exists and its `lecturer` field equals the profile name. -/
def lecturerCourseFilter (db : Db) (name : String) (cid : Nat) : Bool :=
  match courseById db cid with
  | some c => c.lecturer == name
  | none => false

/-- `GradeViewSet.get_queryset`: role-based row filtering of the grades. -/
def gradeGetQueryset (db : Db) (u : User) : List Grade :=
  match u.profile with
  | none => db.grades
  | some p =>
    if p.role == "student" then
      match studentByUser db u with
      | some st => db.grades.filter (fun g => g.studentId == st.id)
      | none => []
    else if p.role == "lecturer" then
      db.grades.filter (fun g => lecturerCourseFilter db p.name g.courseId)
    else
      db.grades

/-- `CourseReviewViewSet.get_queryset`: role-based row filtering of the
reviews (the student branch is an explicit `pass`). -/
def reviewGetQueryset (db : Db) (u : User) : List CourseReview :=
  match u.profile with
  | none => db.reviews
  | some p =>
    if p.role == "student" then
      db.reviews
    else if p.role == "lecturer" then
      db.reviews.filter (fun r => lecturerCourseFilter db p.name r.courseId)
    else
      db.reviews

/-- Outcome of `StudentViewSet.enroll`. -/
inductive EnrollOutcome where
  | forbidden : EnrollOutcome
  | invalidCourse : EnrollOutcome
  | alreadyEnrolled : EnrollOutcome
  | enrolled : String → EnrollOutcome
deriving DecidableEq, Repr

/-- Outcome of `StudentViewSet.unenroll`. -/
inductive UnenrollOutcome where
  | forbidden : UnenrollOutcome
  | invalidCourse : UnenrollOutcome
  | notEnrolled : UnenrollOutcome
  | unenrolled : String → UnenrollOutcome
deriving DecidableEq, Repr

/-- The inline guard shared by `enroll` and `unenroll`:
`hasattr(request.user, 'profile') and request.user.profile.role != 'student'`
then `student.user != request.user` returns 403.  Note the guard fires only
for principals whose role is NOT `'student'`. -/
def enrollGuardBlocks (u : User) (st : Student) : Bool :=
  match u.profile with
  | some p => p.role != "student" && st.userId != u.id
  | none => false

/-- `StudentViewSet.enroll`: guard, then `EnrollmentSerializer` validation
(course must exist), then the check-then-add on the many-to-many edge. -/
def enroll (db : Db) (u : User) (st : Student) (cid : Nat) :
    EnrollOutcome × Db :=
  if enrollGuardBlocks u st then (.forbidden, db)
  else
    match courseById db cid with
    | none => (.invalidCourse, db)
    | some c =>
      if (cid, st.id) ∈ db.enrollments then (.alreadyEnrolled, db)
      else (.enrolled c.name,
            { db with enrollments := db.enrollments ++ [(cid, st.id)] })

/-- `StudentViewSet.unenroll`: guard, validation, then check-then-remove. -/
def unenroll (db : Db) (u : User) (st : Student) (cid : Nat) :
    UnenrollOutcome × Db :=
  if enrollGuardBlocks u st then (.forbidden, db)
  else
    match courseById db cid with
    | none => (.invalidCourse, db)
    | some c =>
      if (cid, st.id) ∈ db.enrollments then
        (.unenrolled c.name,
         { db with
             enrollments := db.enrollments.filter (fun e => e != (cid, st.id)) })
      else (.notEnrolled, db)

/-- `course.students.all()` in `CourseViewSet.students`: the students with
an active many-to-many enrollment edge to the course. -/
def studentsFromM2M (db : Db) (c : Course) : List Student :=
  db.students.filter (fun s => decide ((c.id, s.id) ∈ db.enrollments))

/-- `[grade.student for grade in Grade.objects.filter(course=course)]`:
the student row behind each grade recorded for the course. -/
def studentsFromGrades (db : Db) (c : Course) : List Student :=
  (db.grades.filter (fun g => g.courseId == c.id)).filterMap
    (fun g => db.students.find? (fun s => s.id == g.studentId))

/-- One step of building the Python dict `{student.id: student for ...}`:
an existing key keeps its position and takes the new value, a new key is
appended. -/
def dictInsertById (acc : List Student) (s : Student) : List Student :=
  if acc.any (fun t => t.id == s.id) then
    acc.map (fun t => if t.id == s.id then s else t)
  else acc ++ [s]

/-- `list({student.id: student for student in ...}.values())`:
de-duplication by student id with Python dict-comprehension semantics. -/
def dedupById (l : List Student) : List Student :=
  l.foldl dictInsertById []

/-- `CourseViewSet.students`: the union of M2M-enrolled and graded
students, de-duplicated by student id. -/
def courseStudents (db : Db) (c : Course) : List Student :=
  dedupById (studentsFromM2M db c ++ studentsFromGrades db c)

/-- The client-controlled body of a review-create request; `student` is the
serializer-level field the client may supply. -/
structure ReviewInput where
  student : Nat
  course : Nat
  rating : Nat
  comment : String
deriving DecidableEq, Repr

/-- `CourseReviewSerializer.validate_rating`: rejects `value < 1 or value > 5`. -/
def validRating (r : Nat) : Bool :=
  !(r < 1 || r > 5)

/-- `serializer.save(student=student)` in DRF: the keyword argument
overrides the validated `student` field from the client body; every other
field comes from the validated data. -/
def reviewSerializerSave (vd : ReviewInput) (studentOverride : Nat)
    (rid : Nat) : CourseReview :=
  { id := rid, studentId := studentOverride, courseId := vd.course,
    rating := vd.rating, comment := vd.comment }

/-- Outcome of the review-create action. -/
inductive CreateReviewOutcome where
  | forbidden : CreateReviewOutcome
  | validationFailed : CreateReviewOutcome
  | noLinkedStudent : CreateReviewOutcome
  | created : CourseReview → CreateReviewOutcome
deriving DecidableEq, Repr

/-- `CourseReviewViewSet` create path: `get_permissions` routes `create` to
`IsStudent`; `serializer.is_valid()` runs `validate_rating` and the
existence checks of the generated `PrimaryKeyRelatedField`s for the
writable `student` and `course` model fields (neither is in
`read_only_fields`), each failure giving the same 400 validation outcome;
then `perform_create` looks up the principal's linked Student and saves
with `serializer.save(student=student)`. -/
def createReview (db : Db) (u : User) (input : ReviewInput) :
    CreateReviewOutcome × Db :=
  if !(isStudentPerm u) then (.forbidden, db)
  else if !(validRating input.rating) then (.validationFailed, db)
  else if !(db.students.any (fun s => s.id == input.student)) then
    (.validationFailed, db)
  else if !(db.courses.any (fun c => c.id == input.course)) then
    (.validationFailed, db)
  else
    match studentByUser db u with
    | none => (.noLinkedStudent, db)
    | some st =>
      (.created (reviewSerializerSave input st.id db.reviews.length),
       { db with
           reviews := db.reviews ++ [reviewSerializerSave input st.id db.reviews.length] })

/-- `Grade.objects.filter(student=obj)`. -/
def studentGrades (db : Db) (st : Student) : List Grade :=
  db.grades.filter (fun g => g.studentId == st.id)

/-- `StudentDetailSerializer.get_semester_remark`. -/
def get_semester_remark (db : Db) (st : Student) : String :=
  let grades := studentGrades db st
  if grades.isEmpty then "No grades yet"
  else if grades.all (fun g => g.npStatus == "NP") then "Normal Progress"
  else "Attention Needed"

/-- One grade as the aggregation engine sees it: the derived grade point
and the graded course's credit units. -/
structure GradeEntry where
  gradePoint : ℚ
  creditUnits : Nat
deriving DecidableEq, Repr

/-- Modelled from the spec: `calculate_gpa` lives in `reports/utils.py`,
which is not among the source files; only its import and call sites are.
Per the spec the GPA is the credit-weighted mean
`Σ(grade_point_i × credit_units_i) / Σ(credit_units_i)` with a defined
sentinel (0 here, documented and the same on every call) on the empty grade
set, and division by zero must never occur. -/
def compute_gpa (gs : List GradeEntry) : ℚ :=
  if gs.isEmpty then 0
  else (gs.map (fun g => g.gradePoint * (g.creditUnits : ℚ))).sum /
       (gs.map (fun g => (g.creditUnits : ℚ))).sum

/-! Concrete fixtures used by witnesses and counterexamples. -/

/-- Student-role profile for Alice. -/
def pAlice : Profile := { role := "student", name := "Alice" }

/-- Alice's account, linked (via `stAlice.userId`) to Student 10. -/
def uAlice : User := { id := 1, authenticated := true, profile := some pAlice }

/-- Alice's student row. -/
def stAlice : Student := { id := 10, userId := 1, name := "Alice" }

/-- Student-role profile for Bob. -/
def pBob : Profile := { role := "student", name := "Bob" }

/-- Bob's account. -/
def uBob : User := { id := 2, authenticated := true, profile := some pBob }

/-- Bob's student row. -/
def stBob : Student := { id := 20, userId := 2, name := "Bob" }

/-- Lecturer profile; `cAlg.lecturer` matches this name. -/
def pLori : Profile := { role := "lecturer", name := "Lori" }

/-- The lecturer's account (no linked student row). -/
def uLori : User := { id := 3, authenticated := true, profile := some pLori }

/-- Admin profile. -/
def pAda : Profile := { role := "admin", name := "Ada" }

/-- The admin's account. -/
def uAda : User := { id := 4, authenticated := true, profile := some pAda }

/-- An authenticated account with no Profile row at all. -/
def uNoProfile : User := { id := 5, authenticated := true, profile := none }

/-- Course 100, lectured by Lori. -/
def cAlg : Course :=
  { id := 100, name := "Algo", code := "CS101", creditUnits := 3,
    lecturer := "Lori" }

/-- Course 101, lectured by someone who is not Lori. -/
def cDbs : Course :=
  { id := 101, name := "DbSys", code := "CS102", creditUnits := 4,
    lecturer := "Max" }

/-- A normal-progress grade of Alice in course 100. -/
def gAlice : Grade :=
  { id := 1, studentId := 10, courseId := 100, score := 80, npStatus := "NP" }

/-- A non-normal-progress grade of Bob in course 101. -/
def gBob : Grade :=
  { id := 2, studentId := 20, courseId := 101, score := 40, npStatus := "PP" }

/-- A review by Alice of course 100. -/
def rvAlice : CourseReview :=
  { id := 1, studentId := 10, courseId := 100, rating := 5, comment := "good" }

/-- A review by Bob of course 101. -/
def rvBob : CourseReview :=
  { id := 2, studentId := 20, courseId := 101, rating := 3, comment := "ok" }

/-- The base store: Alice is M2M-enrolled in course 100; Bob only has a
grade in course 101 (graded but not enrolled). -/
def db0 : Db :=
  { students := [stAlice, stBob],
    courses := [cAlg, cDbs],
    grades := [gAlice, gBob],
    reviews := [rvAlice, rvBob],
    enrollments := [(100, 10)] }

/-! Theorems about the embedded operations. -/

/-- C1: a principal whose profile role is `student` and whose account has a
linked Student record receives from `GradeViewSet.get_queryset` only grade
rows whose `student` is that linked Student — never a grade row belonging
to another student. -/
theorem student_grade_rows_are_own (db : Db) (u : User) (p : Profile)
    (st : Student) (hp : u.profile = some p) (hrole : p.role = "student")
    (hst : studentByUser db u = some st) :
    ∀ g ∈ gradeGetQueryset db u, g.studentId = st.id := by
  intro g hg
  simp only [gradeGetQueryset, hp, hrole] at hg
  rw [if_pos (by rfl), hst] at hg
  simpa using (List.mem_filter.mp hg).2

/-- Witness for C1: Alice, a student principal linked to Student 10, lists
grades over the base store and every row is hers. -/
theorem student_grade_rows_are_own_w :
    (uAlice.profile = some pAlice ∧ pAlice.role = "student" ∧
      studentByUser db0 uAlice = some stAlice) ∧
    ∀ g ∈ gradeGetQueryset db0 uAlice, g.studentId = stAlice.id :=
  ⟨⟨rfl, rfl, by decide⟩,
   student_grade_rows_are_own db0 uAlice pAlice stAlice rfl rfl (by decide)⟩

/-- C2, failing input: the guard in `StudentViewSet.enroll` checks
`profile.role != 'student'` before comparing accounts, so the student
principal Alice (role `student`, linked Student 10) may enroll Bob's
Student record (id 20, a different account) — the call succeeds and adds
the edge instead of returning 403 Forbidden — while the privileged lecturer
Lori is the one rejected when acting on Bob's behalf. -/
theorem enroll_guard_inverted :
    enrollGuardBlocks uAlice stBob = false ∧
    (enroll db0 uAlice stBob 101).1 = .enrolled "DbSys" ∧
    (enroll db0 uAlice stBob 101).2.enrollments = [(100, 10), (101, 20)] ∧
    enrollGuardBlocks uLori stBob = true ∧
    (enroll db0 uLori stBob 101).1 = .forbidden ∧
    (enroll db0 uLori stBob 101).2 = db0 := by decide

/-- C3, counterexample: `StudentViewSet.get_permissions` leaves the `gpa`
action under plain `IsAuthenticated`, so the student principal Bob may
request Alice's gpa/cgpa although he is neither Alice's account nor a
lecturer or admin. -/
theorem gpa_open_to_any_authenticated :
    studentViewSetAllows uBob "gpa" = true ∧
    stAlice.userId ≠ uBob.id ∧
    isLecturerOrAdminPerm uBob = false := by decide

/-- C3, amended: the `gpa` action of `StudentViewSet` requires only
authentication — it is permitted for every authenticated principal,
whoever the target student is, and denied exactly to unauthenticated
ones. -/
theorem gpa_requires_only_authentication (u : User) :
    studentViewSetAllows u "gpa" = u.authenticated := rfl

/-- C10: an authenticated account with no Profile row skips the role
filtering entirely in both `GradeViewSet.get_queryset` and
`CourseReviewViewSet.get_queryset`: it receives all grades and all
reviews, the same result as any admin principal. -/
theorem no_profile_sees_everything (db : Db) (u : User)
    (hu : u.profile = none) (ha : u.authenticated = true)
    (ua : User) (pa : Profile) (hua : ua.profile = some pa)
    (hrole : pa.role = "admin") :
    gradeGetQueryset db u = db.grades ∧
    reviewGetQueryset db u = db.reviews ∧
    gradeGetQueryset db u = gradeGetQueryset db ua ∧
    reviewGetQueryset db u = reviewGetQueryset db ua := by
  have hs : ("admin" == "student") = false := by decide
  have hl : ("admin" == "lecturer") = false := by decide
  simp [gradeGetQueryset, reviewGetQueryset, hu, hua, hrole, hs, hl]

/-- Witness for C10: the profile-less account and the admin Ada both see
the full grade and review tables of the base store. -/
theorem no_profile_sees_everything_w :
    (uNoProfile.profile = none ∧ uNoProfile.authenticated = true ∧
      uAda.profile = some pAda ∧ pAda.role = "admin") ∧
    (gradeGetQueryset db0 uNoProfile = db0.grades ∧
     reviewGetQueryset db0 uNoProfile = db0.reviews ∧
     gradeGetQueryset db0 uNoProfile = gradeGetQueryset db0 uAda ∧
     reviewGetQueryset db0 uNoProfile = reviewGetQueryset db0 uAda) :=
  ⟨⟨rfl, rfl, rfl, rfl⟩,
   no_profile_sees_everything db0 uNoProfile rfl rfl uAda pAda rfl rfl⟩

/-- The row test used on lecturer branches, unfolded: it holds exactly when
the row's course exists and its `lecturer` field equals the name. -/
lemma lecturerCourseFilter_iff (db : Db) (n : String) (cid : Nat) :
    lecturerCourseFilter db n cid = true ↔
      ∃ c, courseById db cid = some c ∧ c.lecturer = n := by
  unfold lecturerCourseFilter
  cases h : courseById db cid <;> simp [h]

/-- C4: a lecturer-role principal receives from the grade and review
querysets only rows whose course's `lecturer` field equals their Profile
name, while student-role and admin-role principals receive the review
table unfiltered. -/
theorem lecturer_rows_match_profile_name (db : Db) (u : User) (p : Profile)
    (hp : u.profile = some p) :
    (p.role = "lecturer" →
      (∀ g ∈ gradeGetQueryset db u,
        ∃ c, courseById db g.courseId = some c ∧ c.lecturer = p.name) ∧
      (∀ r ∈ reviewGetQueryset db u,
        ∃ c, courseById db r.courseId = some c ∧ c.lecturer = p.name)) ∧
    (p.role = "student" → reviewGetQueryset db u = db.reviews) ∧
    (p.role = "admin" → reviewGetQueryset db u = db.reviews) := by
  refine ⟨fun hrole => ⟨?_, ?_⟩, fun hrole => ?_, fun hrole => ?_⟩
  · intro g hg
    simp only [gradeGetQueryset, hp, hrole] at hg
    rw [if_neg (by decide), if_pos (by decide)] at hg
    exact (lecturerCourseFilter_iff db p.name g.courseId).mp
      (List.mem_filter.mp hg).2
  · intro r hr
    simp only [reviewGetQueryset, hp, hrole] at hr
    rw [if_neg (by decide), if_pos (by decide)] at hr
    exact (lecturerCourseFilter_iff db p.name r.courseId).mp
      (List.mem_filter.mp hr).2
  · simp only [reviewGetQueryset, hp, hrole]
    rw [if_pos (by decide)]
  · simp only [reviewGetQueryset, hp, hrole]
    rw [if_neg (by decide), if_neg (by decide)]

/-- Witness for C4: every grade and review the lecturer Lori lists over the
base store is for a course lectured by `"Lori"`, and student Bob and admin
Ada get the review table whole. -/
theorem lecturer_rows_match_profile_name_w :
    (uLori.profile = some pLori ∧ pLori.role = "lecturer") ∧
    (∀ g ∈ gradeGetQueryset db0 uLori,
      ∃ c, courseById db0 g.courseId = some c ∧ c.lecturer = pLori.name) ∧
    reviewGetQueryset db0 uBob = db0.reviews ∧
    reviewGetQueryset db0 uAda = db0.reviews :=
  ⟨⟨rfl, rfl⟩,
   ((lecturer_rows_match_profile_name db0 uLori pLori rfl).1 rfl).1,
   (lecturer_rows_match_profile_name db0 uBob pBob rfl).2.1 rfl,
   (lecturer_rows_match_profile_name db0 uAda pAda rfl).2.2 rfl⟩

/-- A create that returns `created` did so past every guard, and both the
returned review and the next store are built from the server-side student
override, never from the client-supplied `student` field. -/
lemma createReview_created_eq (db : Db) (u : User) (input : ReviewInput)
    (st : Student) (r : CourseReview) (db2 : Db)
    (hst : studentByUser db u = some st)
    (h : createReview db u input = (.created r, db2)) :
    r = reviewSerializerSave input st.id db.reviews.length ∧
    db2 = { db with
              reviews := db.reviews ++
                [reviewSerializerSave input st.id db.reviews.length] } := by
  simp only [createReview, hst] at h
  split at h
  · exact absurd h (by simp)
  · split at h
    · exact absurd h (by simp)
    · split at h
      · exact absurd h (by simp)
      · split at h
        · exact absurd h (by simp)
        · have h1 : CreateReviewOutcome.created
              (reviewSerializerSave input st.id db.reviews.length) =
              .created r := congrArg Prod.fst h
          injection h1 with h2
          exact ⟨h2.symm, (congrArg Prod.snd h).symm⟩

/-- C5: `perform_create` saves with `serializer.save(student=student)`, so
every review a student principal creates is owned by their linked Student;
two create requests differing only in the client-supplied `student` field
that both create do so with the same owning student and identical stores,
and when both supplied pks pass the serializer's existence validation the
two runs coincide outright. -/
theorem review_owner_server_assigned (db : Db) (u : User) (st : Student)
    (i1 i2 : ReviewInput) (hst : studentByUser db u = some st)
    (hc : i1.course = i2.course) (hr : i1.rating = i2.rating)
    (hcm : i1.comment = i2.comment) :
    (∀ r db2, createReview db u i1 = (.created r, db2) →
      r.studentId = st.id) ∧
    (∀ r1 db1 r2 db2,
      createReview db u i1 = (.created r1, db1) →
      createReview db u i2 = (.created r2, db2) →
      r1 = r2 ∧ r1.studentId = st.id ∧ db1 = db2) ∧
    (db.students.any (fun s => s.id == i1.student) = true →
     db.students.any (fun s => s.id == i2.student) = true →
     createReview db u i1 = createReview db u i2) := by
  have hsave : reviewSerializerSave i1 st.id db.reviews.length =
      reviewSerializerSave i2 st.id db.reviews.length := by
    simp only [reviewSerializerSave, hc, hr, hcm]
  refine ⟨?_, ?_, ?_⟩
  · intro r db2 h
    obtain ⟨h1, -⟩ := createReview_created_eq db u i1 st r db2 hst h
    rw [h1]
    rfl
  · intro r1 db1 r2 db2 h1 h2
    obtain ⟨e1, e2⟩ := createReview_created_eq db u i1 st r1 db1 hst h1
    obtain ⟨e3, e4⟩ := createReview_created_eq db u i2 st r2 db2 hst h2
    exact ⟨by rw [e1, e3, hsave], by rw [e1]; rfl, by rw [e2, e4, hsave]⟩
  · intro hv1 hv2
    simp only [createReview, hst, hv1, hv2, hc, hr, hcm, hsave]

/-- Witness for C5: Alice creates reviews with the valid client-supplied
`student` pks 20 and 10; the two runs coincide outright, while the same
request with the nonexistent pk 999 fails validation and creates
nothing. -/
theorem review_owner_server_assigned_w :
    (studentByUser db0 uAlice = some stAlice ∧
     db0.students.any (fun s => s.id == 20) = true ∧
     db0.students.any (fun s => s.id == 10) = true) ∧
    createReview db0 uAlice
        { student := 20, course := 101, rating := 4, comment := "x" } =
      createReview db0 uAlice
        { student := 10, course := 101, rating := 4, comment := "x" } ∧
    createReview db0 uAlice
        { student := 999, course := 101, rating := 4, comment := "x" } =
      (.validationFailed, db0) :=
  ⟨⟨by decide, by decide, by decide⟩,
   (review_owner_server_assigned db0 uAlice stAlice
      { student := 20, course := 101, rating := 4, comment := "x" }
      { student := 10, course := 101, rating := 4, comment := "x" }
      (by decide) rfl rfl rfl).2.2 (by decide) (by decide),
   by decide⟩

/-- C6: the semester remark is `"No grades yet"` exactly on an empty grade
set, `"Normal Progress"` exactly when the set is non-empty and every
grade's `np_status` is the normal-progress flag `"NP"`, and
`"Attention Needed"` exactly when the set is non-empty and some grade's
`np_status` is not `"NP"`. -/
theorem semester_remark_cases (db : Db) (st : Student) :
    (get_semester_remark db st = "No grades yet" ↔
      studentGrades db st = []) ∧
    (get_semester_remark db st = "Normal Progress" ↔
      studentGrades db st ≠ [] ∧
        ∀ g ∈ studentGrades db st, g.npStatus = "NP") ∧
    (get_semester_remark db st = "Attention Needed" ↔
      studentGrades db st ≠ [] ∧
        ∃ g ∈ studentGrades db st, g.npStatus ≠ "NP") := by
  unfold get_semester_remark
  have hiff : (studentGrades db st).isEmpty = true ↔
      studentGrades db st = [] := by
    cases studentGrades db st <;> simp
  have halliff : (studentGrades db st).all (fun g => g.npStatus == "NP")
      = true ↔ ∀ g ∈ studentGrades db st, g.npStatus = "NP" := by
    simp [List.all_eq_true]
  by_cases h1 : studentGrades db st = []
  · rw [if_pos (hiff.mpr h1)]
    refine ⟨by simp [h1], ⟨fun h => absurd h (by decide),
      fun h => absurd h1 h.1⟩, ⟨fun h => absurd h (by decide),
      fun h => absurd h1 h.1⟩⟩
  · rw [if_neg (fun hc => h1 (hiff.mp hc))]
    by_cases h2 : ∀ g ∈ studentGrades db st, g.npStatus = "NP"
    · rw [if_pos (halliff.mpr h2)]
      refine ⟨⟨fun h => absurd h (by decide), fun h => absurd h h1⟩,
        ⟨fun _ => ⟨h1, h2⟩, fun _ => rfl⟩,
        ⟨fun h => absurd h (by decide), ?_⟩⟩
      rintro ⟨-, g, hg, hnp⟩
      exact absurd (h2 g hg) hnp
    · rw [if_neg (fun hc => h2 (halliff.mp hc))]
      push_neg at h2
      refine ⟨⟨fun h => absurd h (by decide), fun h => absurd h h1⟩,
        ⟨fun h => absurd h (by decide), fun h => absurd h.2 ?_⟩,
        ⟨fun _ => ⟨h1, h2⟩, fun _ => rfl⟩⟩
      push_neg
      exact h2

/-- Witness for C6: over the base store, Alice (one `"NP"` grade) is
`"Normal Progress"`, Bob (one non-`"NP"` grade) is `"Attention Needed"`,
and a gradeless student gets `"No grades yet"`. -/
theorem semester_remark_cases_w :
    get_semester_remark db0 stAlice = "Normal Progress" ∧
    get_semester_remark db0 stBob = "Attention Needed" ∧
    get_semester_remark db0 { id := 99, userId := 99, name := "Z" }
      = "No grades yet" :=
  ⟨(semester_remark_cases db0 stAlice).2.1.mpr (by decide),
   (semester_remark_cases db0 stBob).2.2.mpr
     ⟨by decide, gBob, by decide, by decide⟩,
   (semester_remark_cases db0 { id := 99, userId := 99, name := "Z" }).1.mpr
     (by decide)⟩

/-- C7: past the guard and with a valid course id, `enroll` returns
`AlreadyEnrolled` exactly when the edge already exists (store unchanged)
and otherwise appends the edge; `unenroll` returns `NotEnrolled` exactly
when the edge is absent (store unchanged) and otherwise removes it; and a
second `enroll` of the same pair right after a successful one returns
`AlreadyEnrolled`. -/
theorem enroll_unenroll_edge_semantics (db : Db) (u : User) (st : Student)
    (cid : Nat) (c : Course) (hperm : enrollGuardBlocks u st = false)
    (hc : courseById db cid = some c) :
    ((cid, st.id) ∈ db.enrollments →
      enroll db u st cid = (.alreadyEnrolled, db) ∧
      unenroll db u st cid =
        (.unenrolled c.name,
         { db with
             enrollments :=
               db.enrollments.filter (fun e => e != (cid, st.id)) })) ∧
    ((cid, st.id) ∉ db.enrollments →
      enroll db u st cid =
        (.enrolled c.name,
         { db with enrollments := db.enrollments ++ [(cid, st.id)] }) ∧
      unenroll db u st cid = (.notEnrolled, db) ∧
      (enroll (enroll db u st cid).2 u st cid).1 = .alreadyEnrolled) := by
  constructor
  · intro hmem
    constructor
    · simp [enroll, hperm, hc, hmem]
    · simp [unenroll, hperm, hc, hmem]
  · intro hmem
    refine ⟨?_, ?_, ?_⟩
    · simp [enroll, hperm, hc, hmem]
    · simp [unenroll, hperm, hc, hmem]
    · have h1 : (enroll db u st cid).2 =
          { db with enrollments := db.enrollments ++ [(cid, st.id)] } := by
        simp [enroll, hperm, hc, hmem]
      rw [h1]
      have hc2 : courseById
          { db with enrollments := db.enrollments ++ [(cid, st.id)] } cid
          = some c := hc
      simp [enroll, hperm, hc2]

/-- Witness for C7: Alice is already enrolled in course 100, so enrolling
again is `AlreadyEnrolled` with the store unchanged and unenrolling
removes the edge. -/
theorem enroll_unenroll_edge_semantics_w :
    (enrollGuardBlocks uAlice stAlice = false ∧
      courseById db0 100 = some cAlg ∧
      (100, stAlice.id) ∈ db0.enrollments) ∧
    (enroll db0 uAlice stAlice 100 = (.alreadyEnrolled, db0) ∧
     unenroll db0 uAlice stAlice 100 =
       (.unenrolled cAlg.name,
        { db0 with
            enrollments :=
              db0.enrollments.filter (fun e => e != (100, stAlice.id)) })) :=
  ⟨⟨by decide, by decide, by decide⟩,
   (enroll_unenroll_edge_semantics db0 uAlice stAlice 100 cAlg
      (by decide) (by decide)).1 (by decide)⟩

/-- C9: on the empty grade set `compute_gpa` returns the fixed sentinel 0,
and on a non-empty set whose credit units are positive it returns the
credit-weighted mean with a provably non-zero divisor, so division by zero
never occurs. -/
theorem compute_gpa_weighted_mean (gs : List GradeEntry) (hne : gs ≠ [])
    (hpos : ∀ g ∈ gs, 0 < g.creditUnits) :
    compute_gpa [] = 0 ∧
    (gs.map (fun g => (g.creditUnits : ℚ))).sum ≠ 0 ∧
    compute_gpa gs =
      (gs.map (fun g => g.gradePoint * (g.creditUnits : ℚ))).sum /
        (gs.map (fun g => (g.creditUnits : ℚ))).sum := by
  have hden : 0 < (gs.map (fun g => (g.creditUnits : ℚ))).sum := by
    apply List.sum_pos
    · intro x hx
      obtain ⟨g, hg, hgx⟩ := List.mem_map.mp hx
      rw [← hgx]
      exact_mod_cast hpos g hg
    · intro hmap
      exact hne (List.map_eq_nil_iff.mp hmap)
  have hemp : gs.isEmpty = false := by
    cases gs
    · exact absurd rfl hne
    · rfl
  exact ⟨rfl, ne_of_gt hden, by rw [compute_gpa, hemp]; rfl⟩

/-- Witness for C9: the spec's own example — credit units 3 and 4 with
grade points 4 and 3 give GPA 24/7, the divisor 7 being non-zero. -/
theorem compute_gpa_weighted_mean_w :
    ([({ gradePoint := 4, creditUnits := 3 } : GradeEntry),
      { gradePoint := 3, creditUnits := 4 }] ≠ [] ∧
     ∀ g ∈ [({ gradePoint := 4, creditUnits := 3 } : GradeEntry),
            { gradePoint := 3, creditUnits := 4 }], 0 < g.creditUnits) ∧
    (compute_gpa [] = 0 ∧
     ([({ gradePoint := 4, creditUnits := 3 } : GradeEntry),
       { gradePoint := 3, creditUnits := 4 }].map
         (fun g => (g.creditUnits : ℚ))).sum ≠ 0 ∧
     compute_gpa
        [({ gradePoint := 4, creditUnits := 3 } : GradeEntry),
         { gradePoint := 3, creditUnits := 4 }] =
       ([({ gradePoint := 4, creditUnits := 3 } : GradeEntry),
         { gradePoint := 3, creditUnits := 4 }].map
           (fun g => g.gradePoint * (g.creditUnits : ℚ))).sum /
         ([({ gradePoint := 4, creditUnits := 3 } : GradeEntry),
           { gradePoint := 3, creditUnits := 4 }].map
             (fun g => (g.creditUnits : ℚ))).sum) :=
  ⟨⟨by decide, by decide⟩,
   compute_gpa_weighted_mean _ (by decide) (by decide)⟩

/-- Replacing the entry of an existing key keeps every id predicate
unchanged: the replacement only swaps a student for one with the same id. -/
lemma replaceById_pred (s : Student) (i : Nat) :
    ((fun t : Student => t.id == i) ∘ fun t => if t.id == s.id then s else t)
      = fun t : Student => t.id == i := by
  funext t
  by_cases ht : t.id = s.id
  · simp [Function.comp, ht]
  · have hf : (t.id == s.id) = false := by simp [ht]
    simp [Function.comp, hf]

/-- After one dict insertion an id is present iff it was present before or
is the inserted student's id. -/
lemma any_dictInsertById (acc : List Student) (s : Student) (i : Nat) :
    (dictInsertById acc s).any (fun t => t.id == i) =
      (acc.any (fun t => t.id == i) || s.id == i) := by
  unfold dictInsertById
  by_cases h : acc.any (fun t => t.id == s.id) = true
  · rw [if_pos h, List.any_map, replaceById_pred]
    by_cases hsi : s.id = i
    · have hacc : acc.any (fun t => t.id == i) = true := by
        obtain ⟨t, ht, hts⟩ := List.any_eq_true.mp h
        refine List.any_eq_true.mpr ⟨t, ht, ?_⟩
        have h2 : t.id = s.id := by simpa using hts
        simp [h2, hsi]
      simp [hacc]
    · have hf : (s.id == i) = false := by simp [hsi]
      simp [hf]
  · rw [if_neg h, List.any_append]
    simp

/-- One dict insertion preserves the invariant that every id occurs at
most once — precisely, exactly once when present. -/
lemma countP_dictInsertById (acc : List Student) (s : Student) (i : Nat)
    (hinv : ∀ j, acc.countP (fun t => t.id == j) =
      if acc.any (fun t => t.id == j) then 1 else 0) :
    (dictInsertById acc s).countP (fun t => t.id == i) =
      if (dictInsertById acc s).any (fun t => t.id == i) then 1 else 0 := by
  rw [any_dictInsertById]
  unfold dictInsertById
  by_cases h : acc.any (fun t => t.id == s.id) = true
  · rw [if_pos h, List.countP_map, replaceById_pred, hinv i]
    by_cases hsi : s.id = i
    · have hacc : acc.any (fun t => t.id == i) = true := by
        obtain ⟨t, ht, hts⟩ := List.any_eq_true.mp h
        refine List.any_eq_true.mpr ⟨t, ht, ?_⟩
        have h2 : t.id = s.id := by simpa using hts
        simp [h2, hsi]
      simp [hacc]
    · have hf : (s.id == i) = false := by simp [hsi]
      simp [hf]
  · rw [if_neg h, List.countP_append, hinv i]
    by_cases hsi : s.id = i
    · have hacc : acc.any (fun t => t.id == i) = false := by
        rw [← hsi]
        exact Bool.not_eq_true _ ▸ Bool.eq_false_iff.mpr h
      have hs1 : ([s].countP fun t => t.id == i) = 1 := by
        simp [hsi]
      simp [hacc, hs1, hsi]
    · have hf : (s.id == i) = false := by simp [hsi]
      have hs0 : ([s].countP fun t => t.id == i) = 0 := by
        simp [hf]
      simp [hs0, hf]

/-- Ids present after the whole fold are the ids of the accumulator plus
the ids of the processed list. -/
lemma any_foldl_dictInsertById (l : List Student) :
    ∀ (acc : List Student) (i : Nat),
      (l.foldl dictInsertById acc).any (fun t => t.id == i) =
        (acc.any (fun t => t.id == i) || l.any (fun t => t.id == i)) := by
  induction l with
  | nil => intro acc i; simp
  | cons s l ih =>
    intro acc i
    rw [List.foldl_cons, ih, any_dictInsertById, List.any_cons,
      Bool.or_assoc]

/-- The fold keeps the exactly-once-per-id invariant. -/
lemma countP_foldl_dictInsertById (l : List Student) :
    ∀ (acc : List Student),
      (∀ j, acc.countP (fun t => t.id == j) =
        if acc.any (fun t => t.id == j) then 1 else 0) →
      ∀ i, (l.foldl dictInsertById acc).countP (fun t => t.id == i) =
        if (l.foldl dictInsertById acc).any (fun t => t.id == i)
        then 1 else 0 := by
  induction l with
  | nil => intro acc hinv i; exact hinv i
  | cons s l ih =>
    intro acc hinv i
    rw [List.foldl_cons]
    exact ih (dictInsertById acc s)
      (fun j => countP_dictInsertById acc s j hinv) i

/-- Every row of one dict insertion is an old row or the inserted one. -/
lemma mem_dictInsertById (acc : List Student) (s t : Student)
    (ht : t ∈ dictInsertById acc s) : t ∈ acc ∨ t = s := by
  unfold dictInsertById at ht
  by_cases h : acc.any (fun r => r.id == s.id) = true
  · rw [if_pos h] at ht
    obtain ⟨r, hr, hrt⟩ := List.mem_map.mp ht
    by_cases hrs : r.id = s.id
    · right
      have hb : (r.id == s.id) = true := by simp [hrs]
      rw [← hrt, if_pos hb]
    · left
      have hb : (r.id == s.id) = false := by simp [hrs]
      rw [← hrt, if_neg (by simp [hb])]
      exact hr
  · rw [if_neg h] at ht
    rcases List.mem_append.mp ht with h1 | h1
    · exact Or.inl h1
    · exact Or.inr (by simpa using h1)

/-- Every row of the fold comes from the accumulator or the input list. -/
lemma mem_foldl_dictInsertById (l : List Student) :
    ∀ (acc : List Student) (t : Student),
      t ∈ l.foldl dictInsertById acc → t ∈ acc ∨ t ∈ l := by
  induction l with
  | nil => intro acc t ht; exact Or.inl ht
  | cons s l ih =>
    intro acc t ht
    rw [List.foldl_cons] at ht
    rcases ih (dictInsertById acc s) t ht with h | h
    · rcases mem_dictInsertById acc s t h with h1 | h1
      · exact Or.inl h1
      · exact Or.inr (by rw [h1]; exact List.mem_cons_self s l)
    · exact Or.inr (List.mem_cons_of_mem s h)

/-- C8: `CourseViewSet.students` lists exactly the union of M2M-enrolled
and graded students: an id occurs exactly once when it belongs to either
source and never otherwise, and every returned row comes from one of the
two sources. -/
theorem course_students_union_dedup (db : Db) (c : Course) (i : Nat) :
    (courseStudents db c).countP (fun t => t.id == i) =
      (if (studentsFromM2M db c ++ studentsFromGrades db c).any
          (fun t => t.id == i) then 1 else 0) ∧
    ∀ t ∈ courseStudents db c,
      t ∈ studentsFromM2M db c ++ studentsFromGrades db c := by
  constructor
  · have h := countP_foldl_dictInsertById
      (studentsFromM2M db c ++ studentsFromGrades db c) [] (by simp) i
    unfold courseStudents dedupById
    rw [h, any_foldl_dictInsertById]
    simp
  · intro t ht
    rcases mem_foldl_dictInsertById
      (studentsFromM2M db c ++ studentsFromGrades db c) [] t ht with h | h
    · simp at h
    · exact h

/-- Witness for C8: course 100 has Alice both M2M-enrolled and graded, yet
her id occurs exactly once; course 101 has the graded-only Bob exactly
once; and each returned row comes from the two sources. -/
theorem course_students_union_dedup_w :
    (courseStudents db0 cAlg).countP (fun t => t.id == 10) = 1 ∧
    (courseStudents db0 cDbs).countP (fun t => t.id == 20) = 1 ∧
    ∀ t ∈ courseStudents db0 cDbs,
      t ∈ studentsFromM2M db0 cDbs ++ studentsFromGrades db0 cDbs := by
  refine ⟨?_, ?_, (course_students_union_dedup db0 cDbs 20).2⟩
  · rw [(course_students_union_dedup db0 cAlg 10).1]
    decide
  · rw [(course_students_union_dedup db0 cDbs 20).1]
    decide

end StudentsPortal
